import Mathlib

/-
Shallow embedding of the synchronization primitives of kern/thread/synch.c:
semaphores, locks and condition variables built on spinlocks and wait
channels.  Each kernel function becomes an executable Lean function over an
explicit state; the sequence of spinlock and wait-channel calls it performs
is recorded as an event trace, in program order.  A KASSERT failure is the
outcome Result.fatal; a thread left asleep on a wait channel with no wakeup
left in the environment is Result.blocked; a normal return is Result.done.
The interleaving of other threads during a sleep loop is supplied
explicitly: a list of the states observed each time wchan_sleep returns and
the spinlock is re-acquired.
-/

namespace Synch

/-- An abstract thread identity token (the curthread of the kernel). -/
abbrev Thread := Nat

/-- Which primitive instance a spinlock or wait-channel event belongs to. -/
inductive Obj where
  | semObj
  | lockObj
  | cvObj
deriving DecidableEq

/-- Events emitted by the operations, in program order: spinlock acquire,
release and cleanup, wait-channel lock, sleep, wakeone, wakeall and
destroy, and the clearing of the lock owner field in lock_destroy. -/
inductive Event where
  | spl_acquire (o : Obj)
  | spl_release (o : Obj)
  | spl_cleanup (o : Obj)
  | wc_lock (o : Obj)
  | wc_sleep (o : Obj)
  | wc_wakeone (o : Obj)
  | wc_wakeall (o : Obj)
  | wc_destroy (o : Obj)
  | clear_owner
deriving DecidableEq

/-- Outcome of one operation: a fatal KASSERT failure, a thread left asleep
on a wait channel (with the trace up to the sleep), or a normal return
(with the full trace and the resulting value). -/
inductive Result (α : Type) where
  | fatal
  | blocked (trace : List Event)
  | done (trace : List Event) (value : α)
deriving DecidableEq

/-- True when the result is a normal return. -/
def Result.isDone {α : Type} : Result α → Bool
  | .done _ _ => true
  | _ => false

/-- wchan_wakeone: wake one thread from the channel queue, if any. -/
def wchan_wakeone : List Thread → List Thread
  | [] => []
  | _ :: ts => ts

/-- wchan_wakeall: wake every thread on the channel queue. -/
def wchan_wakeall (_ : List Thread) : List Thread := ([] : List Thread)

/-- struct semaphore: name, count (a C int), and the contents of the queue
of its wait channel sem_wchan. -/
structure Semaphore where
  sem_name : String
  sem_count : Int
  sem_waiters : List Thread
deriving DecidableEq

/-- struct lock: name, held flag, owner, and the contents of the queue of
its wait channel lk_wchan. -/
structure Lock where
  lk_name : String
  lk_held : Bool
  lk_owner : Option Thread
  lk_waiters : List Thread
deriving DecidableEq

/-- struct cv: name and the contents of the queue of its wait channel. -/
structure CV where
  cv_name : String
  cv_waiters : List Thread
deriving DecidableEq

/-- Which of the three allocation steps of a create function succeed:
kmalloc of the object, kstrdup of the name, wchan_create. -/
structure AllocOracle where
  objOk : Bool
  nameOk : Bool
  wchanOk : Bool
deriving DecidableEq

/-- The sub-resources a create function allocates. -/
inductive Res where
  | resObj
  | resName
  | resWchan
deriving DecidableEq

/-- What a create function did: the value returned to the caller (none is
the NULL return), the sub-resources acquired, and those freed again. -/
structure CreateOut (α : Type) where
  result : Option α
  acquired : List Res
  freed : List Res
deriving DecidableEq

/-- sem_create: KASSERT initial_count nonnegative, then allocate the
object, the name and the wait channel, unwinding on failure; on success
initialize the spinlock and the count. -/
def sem_create (name : String) (initial_count : Int) (o : AllocOracle) :
    Result (CreateOut Semaphore) :=
  if initial_count < 0 then .fatal
  else if o.objOk = false then .done [] ⟨none, [], []⟩
  else if o.nameOk = false then .done [] ⟨none, [.resObj], [.resObj]⟩
  else if o.wchanOk = false then
    .done [] ⟨none, [.resObj, .resName], [.resName, .resObj]⟩
  else .done [] ⟨some ⟨name, initial_count, []⟩, [.resObj, .resName, .resWchan], []⟩

/-- sem_destroy: KASSERT sem nonnull; spinlock_cleanup, then wchan_destroy,
which is fatal if any thread is still on the queue. -/
def sem_destroy (sem : Option Semaphore) : Result Unit :=
  match sem with
  | none => .fatal
  | some s =>
    if s.sem_waiters = [] then
      .done [.spl_cleanup .semObj, .wc_destroy .semObj] ()
    else .fatal

/-- The while loop of P.  The first argument is sem_count as observed with
the spinlock held; wakes gives the count observed each time wchan_sleep
returns and the spinlock is re-acquired; acc is the trace so far. -/
def P_loop : Int → List Int → List Event → Result Int
  | c, [], acc =>
    if c = 0 then
      .blocked (acc ++ [.wc_lock .semObj, .spl_release .semObj, .wc_sleep .semObj])
    else if 0 < c then .done (acc ++ [.spl_release .semObj]) (c - 1)
    else .fatal
  | c, c2 :: rest, acc =>
    if c = 0 then
      P_loop c2 rest
        (acc ++ [.wc_lock .semObj, .spl_release .semObj, .wc_sleep .semObj, .spl_acquire .semObj])
    else if 0 < c then .done (acc ++ [.spl_release .semObj]) (c - 1)
    else .fatal

/-- P: KASSERT sem nonnull; KASSERT not in an interrupt handler;
spinlock_acquire; while sem_count is 0 do the handoff (wchan_lock,
spinlock_release, wchan_sleep, then spinlock_acquire again); KASSERT the
count is positive, decrement it, spinlock_release.  Returns the new count. -/
def P (sem : Option Semaphore) (in_interrupt : Bool) (wakes : List Int) : Result Int :=
  match sem with
  | none => .fatal
  | some s =>
    if in_interrupt then .fatal
    else P_loop s.sem_count wakes [.spl_acquire .semObj]

/-- V: KASSERT sem nonnull; spinlock_acquire; increment sem_count; KASSERT
it became positive; wchan_wakeone; spinlock_release. -/
def V (sem : Option Semaphore) : Result Semaphore :=
  match sem with
  | none => .fatal
  | some s =>
    if 0 < s.sem_count + 1 then
      .done [.spl_acquire .semObj, .wc_wakeone .semObj, .spl_release .semObj]
        { s with sem_count := s.sem_count + 1,
                 sem_waiters := wchan_wakeone s.sem_waiters }
    else .fatal

/-- lock_create: allocate the object, the name and the wait channel with
the same unwinding as sem_create; on success initialize the spinlock and
set lk_held false and lk_owner NULL. -/
def lock_create (name : String) (o : AllocOracle) : Result (CreateOut Lock) :=
  if o.objOk = false then .done [] ⟨none, [], []⟩
  else if o.nameOk = false then .done [] ⟨none, [.resObj], [.resObj]⟩
  else if o.wchanOk = false then
    .done [] ⟨none, [.resObj, .resName], [.resName, .resObj]⟩
  else .done [] ⟨some ⟨name, false, none, []⟩, [.resObj, .resName, .resWchan], []⟩

/-- lock_destroy: KASSERT lock nonnull; set lk_owner NULL; then
spinlock_cleanup and wchan_destroy, the latter fatal if any thread is
still on the queue. -/
def lock_destroy (lk : Option Lock) : Result Unit :=
  match lk with
  | none => .fatal
  | some l =>
    if l.lk_waiters = [] then
      .done [.clear_owner, .spl_cleanup .lockObj, .wc_destroy .lockObj] ()
    else .fatal

/-- The ownership test of lock_do_i_hold: lk_owner equals curthread. -/
def do_i_hold (l : Lock) (t : Thread) : Bool :=
  l.lk_owner == some t

/-- lock_do_i_hold: KASSERT lock nonnull; return the ownership test. -/
def lock_do_i_hold (lk : Option Lock) (t : Thread) : Result Bool :=
  match lk with
  | none => .fatal
  | some l => .done [] (do_i_hold l t)

/-- The while loop of lock_acquire.  The Lock argument is the state as
observed with the spinlock held; wakes gives the state observed each time
wchan_sleep returns and the spinlock is re-acquired; acc is the trace so
far.  On exit it sets lk_held and records the caller as lk_owner. -/
def lock_acquire_loop (t : Thread) : Lock → List Lock → List Event → Result Lock
  | l, [], acc =>
    if l.lk_held then
      .blocked (acc ++ [.wc_lock .lockObj, .spl_release .lockObj, .wc_sleep .lockObj])
    else
      .done (acc ++ [.spl_release .lockObj]) { l with lk_held := true, lk_owner := some t }
  | l, l2 :: rest, acc =>
    if l.lk_held then
      lock_acquire_loop t l2 rest
        (acc ++ [.wc_lock .lockObj, .spl_release .lockObj, .wc_sleep .lockObj, .spl_acquire .lockObj])
    else
      .done (acc ++ [.spl_release .lockObj]) { l with lk_held := true, lk_owner := some t }

/-- lock_acquire: KASSERT lock nonnull; KASSERT the caller does not already
hold it; KASSERT not in an interrupt handler; spinlock_acquire; while
lk_held do the handoff; then set lk_held, set lk_owner to the caller,
spinlock_release. -/
def lock_acquire (lk : Option Lock) (t : Thread) (in_interrupt : Bool)
    (wakes : List Lock) : Result Lock :=
  match lk with
  | none => .fatal
  | some l =>
    if do_i_hold l t then .fatal
    else if in_interrupt then .fatal
    else lock_acquire_loop t l wakes [.spl_acquire .lockObj]

/-- lock_release: KASSERT lock nonnull; KASSERT the caller holds it;
spinlock_acquire; clear lk_held and lk_owner; wchan_wakeone;
spinlock_release. -/
def lock_release (lk : Option Lock) (t : Thread) : Result Lock :=
  match lk with
  | none => .fatal
  | some l =>
    if do_i_hold l t then
      .done [.spl_acquire .lockObj, .wc_wakeone .lockObj, .spl_release .lockObj]
        { l with lk_held := false, lk_owner := none,
                 lk_waiters := wchan_wakeone l.lk_waiters }
    else .fatal

/-- cv_create: allocate the object, the name and the wait channel with the
same unwinding as sem_create; no further state. -/
def cv_create (name : String) (o : AllocOracle) : Result (CreateOut CV) :=
  if o.objOk = false then .done [] ⟨none, [], []⟩
  else if o.nameOk = false then .done [] ⟨none, [.resObj], [.resObj]⟩
  else if o.wchanOk = false then
    .done [] ⟨none, [.resObj, .resName], [.resName, .resObj]⟩
  else .done [] ⟨some ⟨name, []⟩, [.resObj, .resName, .resWchan], []⟩

/-- cv_destroy: KASSERT cv nonnull; wchan_destroy, fatal if any thread is
still on the queue. -/
def cv_destroy (cv : Option CV) : Result Unit :=
  match cv with
  | none => .fatal
  | some c =>
    if c.cv_waiters = [] then .done [.wc_destroy .cvObj] ()
    else .fatal

/-- cv_wait: KASSERT cv and lock nonnull; KASSERT the caller holds the
lock; wchan_lock on the cv channel; lock_release; wchan_sleep on the cv
channel; lock_acquire.  Between the release and the wakeup other threads
may use the lock, so lkAtWake is the lock state observed when the sleeper
re-enters lock_acquire, and wakes feeds the inner acquire loop. -/
def cv_wait (cv : Option CV) (lk : Option Lock) (t : Thread) (in_interrupt : Bool)
    (lkAtWake : Lock) (wakes : List Lock) : Result Lock :=
  match cv, lk with
  | none, none => .fatal
  | none, some _ => .fatal
  | some _, none => .fatal
  | some _, some l =>
    if do_i_hold l t then
      match lock_release (some l) t with
      | .done relTr _ =>
        match lock_acquire (some lkAtWake) t in_interrupt wakes with
        | .done acqTr l2 =>
          .done (Event.wc_lock .cvObj :: (relTr ++ Event.wc_sleep .cvObj :: acqTr)) l2
        | .blocked tr2 =>
          .blocked (Event.wc_lock .cvObj :: (relTr ++ Event.wc_sleep .cvObj :: tr2))
        | .fatal => .fatal
      | _ => .fatal
    else .fatal

/-- cv_signal: KASSERT cv and lock nonnull; wchan_wakeone on the cv
channel.  The lock argument is otherwise unused. -/
def cv_signal (cv : Option CV) (lk : Option Lock) : Result CV :=
  match cv, lk with
  | none, none => .fatal
  | none, some _ => .fatal
  | some _, none => .fatal
  | some c, some _ =>
    .done [.wc_wakeone .cvObj] { c with cv_waiters := wchan_wakeone c.cv_waiters }

/-- cv_broadcast: KASSERT cv and lock nonnull; wchan_wakeall on the cv
channel.  The lock argument is otherwise unused. -/
def cv_broadcast (cv : Option CV) (lk : Option Lock) : Result CV :=
  match cv, lk with
  | none, none => .fatal
  | none, some _ => .fatal
  | some _, none => .fatal
  | some c, some _ =>
    .done [.wc_wakeall .cvObj] { c with cv_waiters := wchan_wakeall c.cv_waiters }

/-- The four events of one iteration of the sleep loop of P: wchan_lock,
spinlock_release, wchan_sleep, spinlock_acquire, in this order. -/
def semHandoff : List Event :=
  [.wc_lock .semObj, .spl_release .semObj, .wc_sleep .semObj, .spl_acquire .semObj]

/-- n copies of a trace, concatenated. -/
def repList : Nat → List Event → List Event
  | 0, _ => []
  | n + 1, xs => xs ++ repList n xs

/-- One completed semaphore call in a sequential history: a P or a V. -/
inductive SemOp where
  | opP
  | opV
deriving DecidableEq

/-- The effect of one completed call on sem_count, read off the P and V
models: none when the call does not complete (a P that blocks, or a fatal
assertion). -/
def semStep (c : Int) : SemOp → Option Int
  | .opP =>
    match P (some ⟨"sem", c, []⟩) false [] with
    | .done _ c2 => some c2
    | _ => none
  | .opV =>
    match V (some ⟨"sem", c, []⟩) with
    | .done _ s => some s.sem_count
    | _ => none

/-- Run a sequence of completed P and V calls from a given count. -/
def runSem : Int → List SemOp → Option Int
  | c, [] => some c
  | c, op :: ops =>
    match semStep c op with
    | some c2 => runSem c2 ops
    | none => none

/-- One completed lock call in a sequential history, tagged with the
calling thread. -/
inductive LockOp where
  | acq (t : Thread)
  | rel (t : Thread)
deriving DecidableEq

/-- The effect of one completed call on the lock state, read off the
lock_acquire and lock_release models: none when the call does not complete
(an acquire that blocks, or a fatal assertion). -/
def lockStep (l : Lock) : LockOp → Option Lock
  | .acq t =>
    match lock_acquire (some l) t false [] with
    | .done _ l2 => some l2
    | _ => none
  | .rel t =>
    match lock_release (some l) t with
    | .done _ l2 => some l2
    | _ => none

/-- Run a sequence of completed acquire and release calls. -/
def runLock : Lock → List LockOp → Option Lock
  | l, [] => some l
  | l, op :: ops =>
    match lockStep l op with
    | some l2 => runLock l2 ops
    | none => none

/-- The thread whose acquire is the last one not yet followed by a
release, given the owner before the sequence. -/
def lastAcquirer : List LockOp → Option Thread → Option Thread
  | [], ow => ow
  | .acq t :: ops, _ => lastAcquirer ops (some t)
  | .rel _ :: ops, _ => lastAcquirer ops none

theorem P_loop_cons_zero (c2 : Int) (rest : List Int) (acc : List Event) :
    P_loop 0 (c2 :: rest) acc = P_loop c2 rest (acc ++ semHandoff) := by
  simp [P_loop, semHandoff]

theorem P_loop_nil_pos (c : Int) (hc : 0 < c) (acc : List Event) :
    P_loop c [] acc = .done (acc ++ [.spl_release .semObj]) (c - 1) := by
  simp [P_loop, hc, hc.ne']

theorem P_loop_zeros (c : Int) (hc : 0 < c) :
    ∀ (n : Nat) (acc : List Event),
      P_loop 0 (List.replicate n 0 ++ [c]) acc
        = .done (acc ++ repList (n + 1) semHandoff ++ [.spl_release .semObj]) (c - 1) := by
  intro n
  induction n with
  | zero =>
    intro acc
    rw [show List.replicate 0 (0 : Int) ++ [c] = [c] by simp]
    rw [P_loop_cons_zero, P_loop_nil_pos c hc]
    simp [repList]
  | succ n ih =>
    intro acc
    rw [show List.replicate (n + 1) (0 : Int) ++ [c] = 0 :: (List.replicate n 0 ++ [c]) by
      simp [List.replicate_succ]]
    rw [P_loop_cons_zero, ih]
    simp [repList]

theorem lock_acquire_loop_done (t : Thread) :
    ∀ (wakes : List Lock) (l : Lock) (acc tr : List Event) (l2 : Lock),
      lock_acquire_loop t l wakes acc = .done tr l2 →
      l2.lk_held = true ∧ l2.lk_owner = some t := by
  intro wakes
  induction wakes with
  | nil =>
    intro l acc tr l2 h
    by_cases hh : l.lk_held <;> simp [lock_acquire_loop, hh] at h
    rcases h with ⟨-, h2⟩
    subst h2
    simp
  | cons l3 rest ih =>
    intro l acc tr l2 h
    by_cases hh : l.lk_held <;> simp [lock_acquire_loop, hh] at h
    · exact ih _ _ _ _ h
    · rcases h with ⟨-, h2⟩
      subst h2
      simp

theorem lock_acquire_done (lk : Option Lock) (t : Thread) (i : Bool)
    (w : List Lock) (tr : List Event) (l2 : Lock) :
    lock_acquire lk t i w = .done tr l2 →
    l2.lk_held = true ∧ l2.lk_owner = some t := by
  intro h
  match lk with
  | none => simp [lock_acquire] at h
  | some l =>
    rw [lock_acquire] at h
    by_cases h1 : do_i_hold l t
    · simp [h1] at h
    · by_cases h2 : i
      · simp [h1, h2] at h
      · simp only [h1, h2, if_false, Bool.false_eq_true] at h
        exact lock_acquire_loop_done t _ _ _ _ _ h

theorem semStep_opP (c : Int) :
    semStep c SemOp.opP = if 0 < c then some (c - 1) else none := by
  by_cases h0 : c = 0
  · subst h0
    simp [semStep, P, P_loop]
  · by_cases h1 : 0 < c <;> simp [semStep, P, P_loop, h0, h1]

theorem semStep_opV (c : Int) :
    semStep c SemOp.opV = if 0 < c + 1 then some (c + 1) else none := by
  by_cases h1 : 0 < c + 1 <;> simp [semStep, V, h1]

theorem runSem_spec :
    ∀ (ops : List SemOp) (c c2 : Int), 0 ≤ c → runSem c ops = some c2 →
      0 ≤ c2 ∧ c2 = c + (ops.count SemOp.opV : Int) - (ops.count SemOp.opP : Int) := by
  intro ops
  induction ops with
  | nil =>
    intro c c2 hc h
    simp [runSem] at h
    subst h
    simp [hc]
  | cons op rest ih =>
    intro c c2 hc h
    rw [runSem] at h
    cases op with
    | opP =>
      rw [semStep_opP] at h
      by_cases h1 : 0 < c
      · simp only [h1, if_true] at h
        obtain ⟨g1, g2⟩ := ih (c - 1) c2 (by omega) h
        refine ⟨g1, ?_⟩
        simp only [List.count_cons] at *
        simp only [g2]
        push_cast
        simp
        omega
      · simp [h1] at h
    | opV =>
      rw [semStep_opV] at h
      by_cases h1 : 0 < c + 1
      · simp only [h1, if_true] at h
        obtain ⟨g1, g2⟩ := ih (c + 1) c2 (by omega) h
        refine ⟨g1, ?_⟩
        simp only [List.count_cons] at *
        simp only [g2]
        push_cast
        simp
        omega
      · simp [h1] at h

theorem runSem_append :
    ∀ (p s : List SemOp) (c : Int), runSem c (p ++ s) =
      match runSem c p with
      | some c2 => runSem c2 s
      | none => none := by
  intro p
  induction p with
  | nil => intro s c; simp [runSem]
  | cons op rest ih =>
    intro s c
    rw [List.cons_append, runSem, runSem]
    cases semStep c op with
    | none => simp
    | some c2 => simp [ih]

theorem lockStep_acq (l : Lock) (t : Thread) :
    lockStep l (.acq t) =
      if l.lk_owner = some t then none
      else if l.lk_held then none
      else some { l with lk_held := true, lk_owner := some t } := by
  by_cases h1 : l.lk_owner = some t
  · simp [lockStep, lock_acquire, do_i_hold, h1]
  · by_cases h2 : l.lk_held <;>
      simp [lockStep, lock_acquire, lock_acquire_loop, do_i_hold, h1, h2]

theorem lockStep_rel (l : Lock) (t : Thread) :
    lockStep l (.rel t) =
      if l.lk_owner = some t then
        some { l with lk_held := false, lk_owner := none,
                      lk_waiters := wchan_wakeone l.lk_waiters }
      else none := by
  by_cases h1 : l.lk_owner = some t <;>
    simp [lockStep, lock_release, do_i_hold, h1]

theorem runLock_spec :
    ∀ (ops : List LockOp) (l l2 : Lock),
      l.lk_owner.isSome = l.lk_held →
      runLock l ops = some l2 →
      l2.lk_owner.isSome = l2.lk_held ∧ l2.lk_owner = lastAcquirer ops l.lk_owner := by
  intro ops
  induction ops with
  | nil =>
    intro l l2 hinv h
    simp [runLock] at h
    subst h
    exact ⟨hinv, rfl⟩
  | cons op rest ih =>
    intro l l2 hinv h
    rw [runLock] at h
    cases op with
    | acq t =>
      rw [lockStep_acq] at h
      by_cases h1 : l.lk_owner = some t
      · simp [h1] at h
      · by_cases h2 : l.lk_held
        · simp [h1, h2] at h
        · simp only [h1, h2, if_false, Bool.false_eq_true, if_neg] at h
          have := ih _ _ (by simp) h
          simpa [lastAcquirer] using this
    | rel t =>
      rw [lockStep_rel] at h
      by_cases h1 : l.lk_owner = some t
      · simp only [h1, if_pos] at h
        have := ih _ _ (by simp) h
        simpa [lastAcquirer] using this
      · simp [h1] at h

theorem P_loop_pos (c : Int) (hc : 0 < c) (wakes : List Int) (acc : List Event) :
    P_loop c wakes acc = .done (acc ++ [.spl_release .semObj]) (c - 1) := by
  cases wakes <;> simp [P_loop, hc, hc.ne']

/-- C1: P is a fatal assertion failure when called from interrupt context.
Otherwise it acquires the spinlock of the semaphore and, for as long as the
count is 0, performs the lock-step handoff in this exact order: lock the
wait channel, release the spinlock, sleep on the channel, then re-acquire
the spinlock and re-check the condition in a loop (a wakeup that finds the
count still 0 sleeps again rather than returning); once the count is
positive it decrements the count by one, releases the spinlock, and
returns. -/
theorem C1_P_protocol :
    (∀ (s : Semaphore) (wakes : List Int), P (some s) true wakes = .fatal)
  ∧ (∀ (s : Semaphore) (wakes : List Int), 0 < s.sem_count →
      P (some s) false wakes
        = .done [.spl_acquire .semObj, .spl_release .semObj] (s.sem_count - 1))
  ∧ (∀ (s : Semaphore), s.sem_count = 0 →
      P (some s) false []
        = .blocked [.spl_acquire .semObj, .wc_lock .semObj, .spl_release .semObj,
            .wc_sleep .semObj])
  ∧ (∀ (s : Semaphore) (n : Nat) (c : Int), s.sem_count = 0 → 0 < c →
      P (some s) false (List.replicate n 0 ++ [c])
        = .done ([Event.spl_acquire .semObj] ++ repList (n + 1) semHandoff
            ++ [.spl_release .semObj]) (c - 1)) := by
  refine ⟨?_, ?_, ?_, ?_⟩
  · intro s wakes
    simp [P]
  · intro s wakes hc
    simp [P, P_loop_pos s.sem_count hc]
  · intro s h0
    simp [P, P_loop, h0]
  · intro s n c h0 hc
    have h1 := P_loop_zeros c hc n [Event.spl_acquire Obj.semObj]
    simp [P, h0, h1]

theorem C1_P_protocol_witness :
    P (some ⟨"s", 3, []⟩) false [] = .done [.spl_acquire .semObj, .spl_release .semObj] 2
  ∧ P (some ⟨"s", 0, []⟩) false []
      = .blocked [.spl_acquire .semObj, .wc_lock .semObj, .spl_release .semObj,
          .wc_sleep .semObj]
  ∧ P (some ⟨"s", 0, []⟩) false [0, 2]
      = .done ([Event.spl_acquire .semObj] ++ repList 2 semHandoff
          ++ [.spl_release .semObj]) 1 := by
  refine ⟨?_, ?_, ?_⟩
  · have h := C1_P_protocol.2.1 ⟨"s", 3, []⟩ [] (by decide)
    simpa using h
  · exact C1_P_protocol.2.2.1 ⟨"s", 0, []⟩ rfl
  · have h := C1_P_protocol.2.2.2 ⟨"s", 0, []⟩ 1 2 rfl (by decide)
    simpa using h

/-- C5: V acquires the spinlock, increments the count by one, is fatal if
the incremented count is not strictly positive, wakes exactly one blocked
thread if any are on the wait channel queue, releases the spinlock, and
never suspends the calling thread. -/
theorem C5_V_behavior :
    (∀ (s : Semaphore), 0 < s.sem_count + 1 →
      V (some s) = .done [.spl_acquire .semObj, .wc_wakeone .semObj, .spl_release .semObj]
        { s with sem_count := s.sem_count + 1,
                 sem_waiters := wchan_wakeone s.sem_waiters })
  ∧ (∀ (s : Semaphore), s.sem_count + 1 ≤ 0 → V (some s) = .fatal)
  ∧ (∀ (t : Thread) (ts : List Thread), wchan_wakeone (t :: ts) = ts)
  ∧ (wchan_wakeone ([] : List Thread) = [])
  ∧ (∀ (sem : Option Semaphore) (tr : List Event), ¬ V sem = .blocked tr)
  ∧ (∀ (s : Semaphore) (tr : List Event) (s2 : Semaphore) (o : Obj),
      V (some s) = .done tr s2 → Event.wc_sleep o ∉ tr) := by
  refine ⟨?_, ?_, fun t ts => rfl, rfl, ?_, ?_⟩
  · intro s h
    simp [V, h]
  · intro s h
    simp only [V]
    rw [if_neg (by omega)]
  · intro sem tr h
    cases sem with
    | none => simp [V] at h
    | some s =>
      by_cases hc : 0 < s.sem_count + 1 <;> simp [V, hc] at h
  · intro s tr s2 o h
    by_cases hc : 0 < s.sem_count + 1 <;> simp [V, hc] at h
    rcases h with ⟨h1, -⟩
    subst h1
    simp

theorem C5_V_behavior_witness :
    V (some ⟨"s", 0, [4, 5]⟩)
      = .done [.spl_acquire .semObj, .wc_wakeone .semObj, .spl_release .semObj]
          ⟨"s", 1, [5]⟩
  ∧ V (some ⟨"s", -2, []⟩) = .fatal
  ∧ Event.wc_sleep Obj.semObj
      ∉ [Event.spl_acquire Obj.semObj, Event.wc_wakeone Obj.semObj,
         Event.spl_release Obj.semObj] := by
  refine ⟨?_, ?_, ?_⟩
  · have h := C5_V_behavior.1 ⟨"s", 0, [4, 5]⟩ (by decide)
    simpa [wchan_wakeone] using h
  · exact C5_V_behavior.2.1 ⟨"s", -2, []⟩ (by decide)
  · exact C5_V_behavior.2.2.2.2.2 ⟨"s", 0, [4, 5]⟩ _ _ Obj.semObj
      (C5_V_behavior.1 ⟨"s", 0, [4, 5]⟩ (by decide))

/-- C6: lock_acquire is fatal, before touching any lock state, when the
calling thread already holds the lock or when called from interrupt
context. -/
theorem C6_lock_acquire_fatal :
    (∀ (l : Lock) (t : Thread) (i : Bool) (w : List Lock),
        do_i_hold l t = true → lock_acquire (some l) t i w = .fatal)
  ∧ (∀ (l : Lock) (t : Thread) (w : List Lock),
        lock_acquire (some l) t true w = .fatal) := by
  constructor
  · intro l t i w h
    simp [lock_acquire, h]
  · intro l t w
    by_cases h : do_i_hold l t = true <;> simp [lock_acquire, h]

theorem C6_lock_acquire_fatal_witness :
    lock_acquire (some ⟨"l", true, some 7, []⟩) 7 false [] = .fatal :=
  C6_lock_acquire_fatal.1 ⟨"l", true, some 7, []⟩ 7 false [] (by decide)

/-- C10: every exported operation on an existing primitive begins with a
KASSERT that its primitive argument is not NULL, and cv_wait, cv_signal
and cv_broadcast also assert the lock argument is not NULL, so passing
NULL (none) is an immediately detected fatal assertion. -/
theorem C10_null_asserts :
    sem_destroy none = .fatal
  ∧ (∀ (i : Bool) (w : List Int), P none i w = .fatal)
  ∧ V none = .fatal
  ∧ lock_destroy none = .fatal
  ∧ (∀ (t : Thread) (i : Bool) (w : List Lock), lock_acquire none t i w = .fatal)
  ∧ (∀ (t : Thread), lock_release none t = .fatal)
  ∧ (∀ (t : Thread), lock_do_i_hold none t = .fatal)
  ∧ cv_destroy none = .fatal
  ∧ (∀ (lk : Option Lock) (t : Thread) (i : Bool) (lw : Lock) (w : List Lock),
      cv_wait none lk t i lw w = .fatal)
  ∧ (∀ (c : CV) (t : Thread) (i : Bool) (lw : Lock) (w : List Lock),
      cv_wait (some c) none t i lw w = .fatal)
  ∧ (∀ (lk : Option Lock), cv_signal none lk = .fatal)
  ∧ (∀ (c : CV), cv_signal (some c) none = .fatal)
  ∧ (∀ (lk : Option Lock), cv_broadcast none lk = .fatal)
  ∧ (∀ (c : CV), cv_broadcast (some c) none = .fatal) := by
  refine ⟨rfl, fun i w => rfl, rfl, rfl, fun t i w => rfl, fun t => rfl, fun t => rfl,
    rfl, ?_, fun c t i lw w => rfl, ?_, fun c => rfl, ?_, fun c => rfl⟩
  · intro lk t i lw w
    cases lk <;> rfl
  · intro lk
    cases lk <;> rfl
  · intro lk
    cases lk <;> rfl

/-- C2: cv_wait is fatal unless the calling thread holds the lock, and
then performs exactly this sequence in order: lock the wait channel of the
cv, release the lock (spinlock acquire, wakeone, spinlock release on the
lock), sleep on the cv channel, then re-acquire the lock; every call that
returns does so with the lock held by the caller. -/
theorem C2_cv_wait_protocol :
    (∀ (c : CV) (lk : Lock) (t : Thread) (i : Bool) (lkW : Lock) (w : List Lock),
        do_i_hold lk t = false →
        cv_wait (some c) (some lk) t i lkW w = .fatal)
  ∧ (∀ (c : CV) (lk : Lock) (t : Thread) (i : Bool) (lkW : Lock) (w : List Lock)
        (tr : List Event) (l2 : Lock),
        cv_wait (some c) (some lk) t i lkW w = .done tr l2 →
        (∃ rest, tr = [.wc_lock .cvObj, .spl_acquire .lockObj, .wc_wakeone .lockObj,
            .spl_release .lockObj, .wc_sleep .cvObj] ++ rest)
        ∧ l2.lk_held = true ∧ l2.lk_owner = some t)
  ∧ (∀ (c : CV) (lk : Lock) (t : Thread) (lkW : Lock),
        do_i_hold lk t = true → lkW.lk_held = false → do_i_hold lkW t = false →
        cv_wait (some c) (some lk) t false lkW []
          = .done [.wc_lock .cvObj, .spl_acquire .lockObj, .wc_wakeone .lockObj,
              .spl_release .lockObj, .wc_sleep .cvObj, .spl_acquire .lockObj,
              .spl_release .lockObj]
              { lkW with lk_held := true, lk_owner := some t }) := by
  refine ⟨?_, ?_, ?_⟩
  · intro c lk t i lkW w h1
    simp [cv_wait, h1]
  · intro c lk t i lkW w tr l2 h
    by_cases h1 : do_i_hold lk t = true
    · simp only [cv_wait, h1, if_true, lock_release] at h
      rcases hacq : lock_acquire (some lkW) t i w with _ | tr2 | ⟨acqTr, l3⟩ <;>
        rw [hacq] at h <;> simp at h
      rcases h with ⟨htr, hl⟩
      subst htr
      subst hl
      refine ⟨⟨acqTr, by simp⟩, lock_acquire_done _ _ _ _ _ _ hacq⟩
    · simp [cv_wait, h1] at h
  · intro c lk t lkW h1 h2 h3
    simp [cv_wait, h1, lock_release, lock_acquire, lock_acquire_loop, h2, h3]

theorem C2_cv_wait_protocol_witness :
    cv_wait (some ⟨"c", []⟩) (some ⟨"l", false, none, []⟩) 1 false ⟨"l", false, none, []⟩ []
      = .fatal
  ∧ cv_wait (some ⟨"c", []⟩) (some ⟨"l", true, some 1, []⟩) 1 false ⟨"l", false, none, []⟩ []
      = .done [.wc_lock .cvObj, .spl_acquire .lockObj, .wc_wakeone .lockObj,
          .spl_release .lockObj, .wc_sleep .cvObj, .spl_acquire .lockObj,
          .spl_release .lockObj] ⟨"l", true, some 1, []⟩ := by
  constructor
  · exact C2_cv_wait_protocol.1 ⟨"c", []⟩ ⟨"l", false, none, []⟩ 1 false
      ⟨"l", false, none, []⟩ [] (by decide)
  · have h := C2_cv_wait_protocol.2.2 ⟨"c", []⟩ ⟨"l", true, some 1, []⟩ 1
      ⟨"l", false, none, []⟩ (by decide) (by decide) (by decide)
    simpa using h

/-- C3: sem_create is fatal on a negative initial count; over every
sequence of completed P and V calls the count never goes negative, a run
that completed so far cannot have had a failed prefix, and a balanced
sequence (equally many completed P and V calls) leaves the count at its
initial value. -/
theorem C3_sem_count_invariant :
    (∀ (name : String) (i : Int) (o : AllocOracle), i < 0 → sem_create name i o = .fatal)
  ∧ (∀ (ops : List SemOp) (c c2 : Int), 0 ≤ c → runSem c ops = some c2 → 0 ≤ c2)
  ∧ (∀ (p s : List SemOp) (c c2 : Int), runSem c (p ++ s) = some c2 → runSem c p ≠ none)
  ∧ (∀ (ops : List SemOp) (c c2 : Int), 0 ≤ c →
      ops.count SemOp.opP = ops.count SemOp.opV →
      runSem c ops = some c2 → c2 = c) := by
  refine ⟨?_, ?_, ?_, ?_⟩
  · intro name i o h
    simp [sem_create, h]
  · intro ops c c2 hc h
    exact (runSem_spec ops c c2 hc h).1
  · intro p s c c2 h hn
    rw [runSem_append] at h
    rw [hn] at h
    simp at h
  · intro ops c c2 hc hbal h
    have h2 := (runSem_spec ops c c2 hc h).2
    omega

theorem C3_sem_count_invariant_witness :
    sem_create "s" (-1) ⟨true, true, true⟩ = .fatal
  ∧ (0 : Int) ≤ 1
  ∧ runSem 0 [SemOp.opV] ≠ none
  ∧ (0 : Int) = 0 := by
  refine ⟨?_, ?_, ?_, ?_⟩
  · exact C3_sem_count_invariant.1 "s" (-1) ⟨true, true, true⟩ (by decide)
  · exact C3_sem_count_invariant.2.1 [SemOp.opV] 0 1 (by decide) (by rfl)
  · exact C3_sem_count_invariant.2.2.1 [SemOp.opV] [SemOp.opP] 0 0 (by rfl)
  · exact C3_sem_count_invariant.2.2.2 [SemOp.opV, SemOp.opP] 0 0 (by decide)
      (by decide) (by rfl)

/-- C4: every lock operation preserves the invariant that the owner field
is set if and only if the held flag is true: lock_create initializes both
together (held false, owner none), a completed lock_acquire sets both
together (held true, owner the caller), a completed lock_release clears
both together, and over every completed sequence of acquires and releases
the owner is exactly the thread whose acquire is the last not yet followed
by its release. -/
theorem C4_lock_owner_invariant :
    (∀ (name : String) (o : AllocOracle) (tr : List Event) (out : CreateOut Lock) (L : Lock),
        lock_create name o = .done tr out → out.result = some L →
        L.lk_held = false ∧ L.lk_owner = none)
  ∧ (∀ (lk : Option Lock) (t : Thread) (i : Bool) (w : List Lock)
        (tr : List Event) (l2 : Lock),
        lock_acquire lk t i w = .done tr l2 → l2.lk_held = true ∧ l2.lk_owner = some t)
  ∧ (∀ (lk : Option Lock) (t : Thread) (tr : List Event) (l2 : Lock),
        lock_release lk t = .done tr l2 → l2.lk_held = false ∧ l2.lk_owner = none)
  ∧ (∀ (ops : List LockOp) (l l2 : Lock),
        l.lk_owner.isSome = l.lk_held →
        runLock l ops = some l2 →
        l2.lk_owner.isSome = l2.lk_held ∧ l2.lk_owner = lastAcquirer ops l.lk_owner) := by
  refine ⟨?_, fun lk t i w tr l2 => lock_acquire_done lk t i w tr l2, ?_, runLock_spec⟩
  · intro name o tr out L h1 h2
    rcases o with ⟨b1, b2, b3⟩
    cases b1 <;> cases b2 <;> cases b3 <;>
      (simp [lock_create] at h1
       obtain ⟨-, rfl⟩ := h1
       simp at h2
       try (subst h2; exact ⟨rfl, rfl⟩))
  · intro lk t tr l2 h
    match lk with
    | none => simp [lock_release] at h
    | some l =>
      by_cases h1 : do_i_hold l t = true <;> simp [lock_release, h1] at h
      rcases h with ⟨-, h2⟩
      subst h2
      simp

theorem C4_lock_owner_invariant_witness :
    ((Lock.mk "l" false none []).lk_held = false ∧ (Lock.mk "l" false none []).lk_owner = none)
  ∧ ((Lock.mk "l" true (some 1) []).lk_held = true
      ∧ (Lock.mk "l" true (some 1) []).lk_owner = some 1)
  ∧ ((Lock.mk "l" false none []).lk_held = false ∧ (Lock.mk "l" false none []).lk_owner = none)
  ∧ ((Lock.mk "l" true (some 2) []).lk_owner.isSome = (Lock.mk "l" true (some 2) []).lk_held
      ∧ (Lock.mk "l" true (some 2) []).lk_owner
          = lastAcquirer [LockOp.acq 1, LockOp.rel 1, LockOp.acq 2]
              ((Lock.mk "l" false none []).lk_owner)) := by
  refine ⟨?_, ?_, ?_, ?_⟩
  · exact C4_lock_owner_invariant.1 "l" ⟨true, true, true⟩ [] ⟨some ⟨"l", false, none, []⟩,
      [.resObj, .resName, .resWchan], []⟩ ⟨"l", false, none, []⟩ rfl rfl
  · exact C4_lock_owner_invariant.2.1 (some ⟨"l", false, none, []⟩) 1 false []
      [.spl_acquire .lockObj, .spl_release .lockObj] ⟨"l", true, some 1, []⟩ rfl
  · exact C4_lock_owner_invariant.2.2.1 (some ⟨"l", true, some 1, []⟩) 1
      [.spl_acquire .lockObj, .wc_wakeone .lockObj, .spl_release .lockObj]
      ⟨"l", false, none, []⟩ rfl
  · exact C4_lock_owner_invariant.2.2.2 [LockOp.acq 1, LockOp.rel 1, LockOp.acq 2]
      ⟨"l", false, none, []⟩ ⟨"l", true, some 2, []⟩ rfl rfl

/-- C7: cv_signal wakes exactly one waiter via wchan_wakeone (the head of
the queue) and is a no-op on an empty queue, remembering nothing;
cv_broadcast wakes all waiters; neither reads the lock argument beyond the
NULL assert, so holding the lock is not a checked precondition; and a
cv_wait that does not hit a fatal assert always sleeps on the channel, so
a past signal cannot make it return immediately. -/
theorem C7_signal_broadcast :
    (∀ (c : CV) (l : Lock), cv_signal (some c) (some l)
        = .done [.wc_wakeone .cvObj] { c with cv_waiters := wchan_wakeone c.cv_waiters })
  ∧ (∀ (t : Thread) (ts : List Thread), wchan_wakeone (t :: ts) = ts)
  ∧ (wchan_wakeone ([] : List Thread) = [])
  ∧ (∀ (c : CV) (l l2 : Lock), cv_signal (some c) (some l) = cv_signal (some c) (some l2))
  ∧ (∀ (c : CV) (l : Lock), cv_broadcast (some c) (some l)
        = .done [.wc_wakeall .cvObj] { c with cv_waiters := [] })
  ∧ (∀ (c : CV) (lk : Lock) (t : Thread) (i : Bool) (lkW : Lock) (w : List Lock)
        (tr : List Event) (l2 : Lock),
        cv_wait (some c) (some lk) t i lkW w = .done tr l2 →
        Event.wc_sleep Obj.cvObj ∈ tr)
  ∧ (∀ (c : CV) (lk : Lock) (t : Thread) (i : Bool) (lkW : Lock) (w : List Lock)
        (tr : List Event),
        cv_wait (some c) (some lk) t i lkW w = .blocked tr →
        Event.wc_sleep Obj.cvObj ∈ tr) := by
  refine ⟨fun c l => rfl, fun t ts => rfl, rfl, fun c l l2 => rfl,
    fun c l => rfl, ?_, ?_⟩
  · intro c lk t i lkW w tr l2 h
    by_cases h1 : do_i_hold lk t = true
    · simp only [cv_wait, h1, if_true, lock_release] at h
      rcases hacq : lock_acquire (some lkW) t i w with _ | tr2 | ⟨acqTr, l3⟩ <;>
        rw [hacq] at h <;> simp at h
      rcases h with ⟨htr, -⟩
      subst htr
      simp
    · simp [cv_wait, h1] at h
  · intro c lk t i lkW w tr h
    by_cases h1 : do_i_hold lk t = true
    · simp only [cv_wait, h1, if_true, lock_release] at h
      rcases hacq : lock_acquire (some lkW) t i w with _ | tr2 | ⟨acqTr, l3⟩ <;>
        rw [hacq] at h <;> simp at h
      subst h
      simp
    · simp [cv_wait, h1] at h

/-- C8: each of sem_create, lock_create and cv_create always returns to
the caller (no fatal halt, given a nonnegative initial count for
sem_create); whenever the returned value is the NULL result, the freed
sub-resources are exactly the acquired ones; and a non-NULL result is
produced only when every allocation step succeeded and is the fully
initialized object. -/
theorem C8_create_rollback :
    (∀ (name : String) (i : Int) (o : AllocOracle), 0 ≤ i →
        (sem_create name i o).isDone = true)
  ∧ (∀ (name : String) (i : Int) (o : AllocOracle) (tr : List Event)
        (out : CreateOut Semaphore),
        0 ≤ i → sem_create name i o = .done tr out →
        (out.result = none → out.freed.Perm out.acquired)
        ∧ (∀ s, out.result = some s →
            (o.objOk = true ∧ o.nameOk = true ∧ o.wchanOk = true)
            ∧ s = ⟨name, i, []⟩))
  ∧ (∀ (name : String) (o : AllocOracle), (lock_create name o).isDone = true)
  ∧ (∀ (name : String) (o : AllocOracle) (tr : List Event) (out : CreateOut Lock),
        lock_create name o = .done tr out →
        (out.result = none → out.freed.Perm out.acquired)
        ∧ (∀ L, out.result = some L →
            (o.objOk = true ∧ o.nameOk = true ∧ o.wchanOk = true)
            ∧ L = ⟨name, false, none, []⟩))
  ∧ (∀ (name : String) (o : AllocOracle), (cv_create name o).isDone = true)
  ∧ (∀ (name : String) (o : AllocOracle) (tr : List Event) (out : CreateOut CV),
        cv_create name o = .done tr out →
        (out.result = none → out.freed.Perm out.acquired)
        ∧ (∀ c, out.result = some c →
            (o.objOk = true ∧ o.nameOk = true ∧ o.wchanOk = true)
            ∧ c = ⟨name, []⟩)) := by
  refine ⟨?_, ?_, ?_, ?_, ?_, ?_⟩
  · intro name i o h
    rcases o with ⟨b1, b2, b3⟩
    cases b1 <;> cases b2 <;> cases b3 <;>
      simp [sem_create, Result.isDone, if_neg (not_lt.mpr h)]
  · intro name i o tr out h h1
    rcases o with ⟨b1, b2, b3⟩
    cases b1 <;> cases b2 <;> cases b3 <;>
      (rw [sem_create, if_neg (not_lt.mpr h)] at h1
       simp at h1
       obtain ⟨-, rfl⟩ := h1
       refine ⟨fun hn => ?_, ?_⟩
       · first
         | decide
         | simp at hn
       · intro s hs
         simp_all)
  · intro name o
    rcases o with ⟨b1, b2, b3⟩
    cases b1 <;> cases b2 <;> cases b3 <;> simp [lock_create, Result.isDone]
  · intro name o tr out h1
    rcases o with ⟨b1, b2, b3⟩
    cases b1 <;> cases b2 <;> cases b3 <;>
      (simp [lock_create] at h1
       obtain ⟨-, rfl⟩ := h1
       refine ⟨fun hn => ?_, ?_⟩
       · first
         | decide
         | simp at hn
       · intro L hL
         simp_all)
  · intro name o
    rcases o with ⟨b1, b2, b3⟩
    cases b1 <;> cases b2 <;> cases b3 <;> simp [cv_create, Result.isDone]
  · intro name o tr out h1
    rcases o with ⟨b1, b2, b3⟩
    cases b1 <;> cases b2 <;> cases b3 <;>
      (simp [cv_create] at h1
       obtain ⟨-, rfl⟩ := h1
       refine ⟨fun hn => ?_, ?_⟩
       · first
         | decide
         | simp at hn
       · intro c hc
         simp_all)

theorem C8_create_rollback_witness :
    (sem_create "s" 2 ⟨true, true, false⟩).isDone = true
  ∧ (List.Perm [Res.resName, Res.resObj] [Res.resObj, Res.resName]
      ∧ ((Semaphore.mk "s" 2 []).sem_name = "s" ∧ (Semaphore.mk "s" 2 []).sem_count = 2)) := by
  refine ⟨?_, ?_, ?_⟩
  · exact C8_create_rollback.1 "s" 2 ⟨true, true, false⟩ (by decide)
  · exact (C8_create_rollback.2.1 "s" 2 ⟨true, true, false⟩ []
      ⟨none, [Res.resObj, Res.resName], [Res.resName, Res.resObj]⟩ (by decide) rfl).1 rfl
  · have h := ((C8_create_rollback.2.1 "s" 2 ⟨true, true, true⟩ []
      ⟨some ⟨"s", 2, []⟩, [Res.resObj, Res.resName, Res.resWchan], []⟩ (by decide) rfl).2
        ⟨"s", 2, []⟩ rfl).2
    exact ⟨congrArg Semaphore.sem_name h, congrArg Semaphore.sem_count h⟩

/-- C9 counterexample: a lock that is currently held (held true, owner
thread 0) but has no thread on its wait channel is torn down by
lock_destroy without any fatal assertion, so the code does not enforce
that a lock is destroyed only when unheld. -/
theorem C9_held_lock_destroyed :
    lock_destroy (some ⟨"l", true, some 0, []⟩)
      = .done [.clear_owner, .spl_cleanup .lockObj, .wc_destroy .lockObj] () := rfl

/-- C9 (amended): destroying a semaphore, lock or cv while a thread is
blocked on its wait channel is a fatal assertion, delivered through the
wait channel destructor contract; lock_destroy clears the owner field
before the spinlock cleanup and the wait channel destroy; unheldness of a
lock at destroy time is a caller obligation that the code does not check. -/
theorem C9_destroy_waiters_fatal :
    (∀ (s : Semaphore), s.sem_waiters ≠ [] → sem_destroy (some s) = .fatal)
  ∧ (∀ (l : Lock), l.lk_waiters ≠ [] → lock_destroy (some l) = .fatal)
  ∧ (∀ (c : CV), c.cv_waiters ≠ [] → cv_destroy (some c) = .fatal)
  ∧ (∀ (l : Lock) (tr : List Event) (u : Unit), lock_destroy (some l) = .done tr u →
      tr = [.clear_owner, .spl_cleanup .lockObj, .wc_destroy .lockObj]) := by
  refine ⟨?_, ?_, ?_, ?_⟩
  · intro s h
    simp [sem_destroy, h]
  · intro l h
    simp [lock_destroy, h]
  · intro c h
    simp [cv_destroy, h]
  · intro l tr u h
    by_cases he : l.lk_waiters = [] <;> simp [lock_destroy, he] at h
    exact h.symm

theorem C9_destroy_waiters_fatal_witness :
    sem_destroy (some ⟨"s", 0, [3]⟩) = .fatal
  ∧ lock_destroy (some ⟨"l", true, some 1, [4]⟩) = .fatal
  ∧ cv_destroy (some ⟨"c", [5]⟩) = .fatal
  ∧ [Event.clear_owner, Event.spl_cleanup Obj.lockObj, Event.wc_destroy Obj.lockObj]
      = [Event.clear_owner, Event.spl_cleanup Obj.lockObj, Event.wc_destroy Obj.lockObj] := by
  refine ⟨?_, ?_, ?_, ?_⟩
  · exact C9_destroy_waiters_fatal.1 ⟨"s", 0, [3]⟩ (by decide)
  · exact C9_destroy_waiters_fatal.2.1 ⟨"l", true, some 1, [4]⟩ (by decide)
  · exact C9_destroy_waiters_fatal.2.2.1 ⟨"c", [5]⟩ (by decide)
  · exact C9_destroy_waiters_fatal.2.2.2 ⟨"l", false, none, []⟩
      [.clear_owner, .spl_cleanup .lockObj, .wc_destroy .lockObj] () rfl

theorem C7_signal_broadcast_witness :
    Event.wc_sleep Obj.cvObj
      ∈ [Event.wc_lock Obj.cvObj, Event.spl_acquire Obj.lockObj,
         Event.wc_wakeone Obj.lockObj, Event.spl_release Obj.lockObj,
         Event.wc_sleep Obj.cvObj, Event.spl_acquire Obj.lockObj,
         Event.spl_release Obj.lockObj] := by
  exact C7_signal_broadcast.2.2.2.2.2.1 ⟨"c", []⟩ ⟨"l", true, some 1, []⟩ 1 false
    ⟨"l", false, none, []⟩ [] _ ⟨"l", true, some 1, []⟩ (by rfl)

end Synch
